import Mathlib

/-!
Shallow embedding of the Doomslug approval state machine of
src/chain-core/src/doomslug.rs, together with the data model of
src/chain-model/src/block.rs, src/chain-model/src/crypto.rs and
src/chain-model/src/types.rs.

Modelling conventions:
* `BlockHeight` and `BlockHeightDelta` (u64) are natural numbers.
* `std::time::Instant` and `std::time::Duration` are natural numbers
  (nanoseconds); `Instant + Duration`, `Duration + Duration`,
  `Duration * u32` and comparisons are the corresponding `Nat` operations.
* The `Clock` collaborator of src/chain-model/src/clock.rs is replaced by
  passing the value `clock.now()` would return as an explicit `now`
  argument to every operation that reads the clock.
* The `for _ in 0..MAX_TIMER_ITERS` loop of `process_timer` is unrolled
  through a fuel argument; one loop body is `Doomslug.timerIter`, split
  into the endorsement-deadline branch `Doomslug.endorseStep` and the
  skip-deadline branch `Doomslug.skipStep`.
* `debug_assert!` statements compile to nothing in release builds and are
  not part of the state transition; the condition of the assertion at the
  top of the `process_timer` loop is available as `Doomslug.skipDelay`
  versus `2 * endorsement_delay`.
-/

/-- `u32::MAX`: the clamp applied by `get_delay` via
`u32::try_from(n).unwrap_or(u32::MAX)`. -/
def U32_MAX : Nat := 2 ^ 32 - 1

/-- [crypto.rs] `CryptoHash(pub [u8; 32])`, opaque to the core: an
equality-comparable value. Bytes are modelled as naturals. -/
structure CryptoHash where
  bytes : List Nat
  deriving DecidableEq

/-- [crypto.rs] `CryptoHash::default()`, the all-zero hash. -/
def CryptoHash.zero : CryptoHash :=
  ⟨List.replicate 32 0⟩

/-- [block.rs] `ApprovalInner`: endorsement carries the parent hash, skip
carries the parent height. -/
inductive ApprovalInner where
  | Endorsement (parent_hash : CryptoHash)
  | Skip (parent_height : Nat)
  deriving DecidableEq

/-- [block.rs] `ApprovalInner::new`: an endorsement exactly when the target
is the direct successor of the parent height. -/
def ApprovalInner.new (parent_hash : CryptoHash) (parent_height target_height : Nat) :
    ApprovalInner :=
  if target_height = parent_height + 1 then .Endorsement parent_hash
  else .Skip parent_height

/-- [block.rs] `Approval`. -/
structure Approval where
  inner : ApprovalInner
  target_height : Nat
  deriving DecidableEq

/-- [block.rs] `Approval::new`. -/
def Approval.new (parent_hash : CryptoHash) (parent_height target_height : Nat) : Approval :=
  ⟨ApprovalInner.new parent_hash parent_height target_height, target_height⟩

/-- `true` exactly on the `Endorsement` variant. -/
def ApprovalInner.isEndorsement : ApprovalInner → Bool
  | .Endorsement _ => true
  | .Skip _ => false

/-- `true` exactly on the `Skip` variant. -/
def ApprovalInner.isSkip : ApprovalInner → Bool
  | .Endorsement _ => false
  | .Skip _ => true

/-- Number of `Endorsement`-tagged approvals in a list. -/
def endorsementCount (l : List Approval) : Nat :=
  l.countP fun a => a.inner.isEndorsement

/-- Number of `Skip`-tagged approvals in a list. -/
def skipCount (l : List Approval) : Nat :=
  l.countP fun a => a.inner.isSkip

/-- [doomslug.rs] `MAX_TIMER_ITERS`. -/
def MAX_TIMER_ITERS : Nat := 20

/-- [doomslug.rs] `DoomslugTimer`. `started` and `last_endorsement_sent`
are instants; the last four fields are the configured delays. -/
structure DoomslugTimer where
  started : Nat
  last_endorsement_sent : Nat
  height : Nat
  endorsement_delay : Nat
  min_delay : Nat
  delay_step : Nat
  max_delay : Nat
  deriving DecidableEq

/-- [doomslug.rs, lines 30-36] `DoomslugTimer::get_delay`:
`n32 = u32::try_from(n).unwrap_or(u32::MAX)` clamps `n` to `u32::MAX`,
then the result is `min(max_delay, min_delay + delay_step * n32.saturating_sub(2))`.
On naturals, `saturating_sub` is truncated subtraction. -/
def DoomslugTimer.get_delay (t : DoomslugTimer) (n : Nat) : Nat :=
  let n32 := min n U32_MAX
  min t.max_delay (t.min_delay + t.delay_step * (n32 - 2))

/-- [doomslug.rs] `DoomslugTip`. -/
structure DoomslugTip where
  block_hash : CryptoHash
  height : Nat
  deriving DecidableEq

/-- [doomslug.rs] `Doomslug` (the `clock` field is replaced by explicit
`now` arguments, see the file header). -/
structure Doomslug where
  largest_target_height : Nat
  largest_final_height : Nat
  tip : DoomslugTip
  endorsement_pending : Bool
  timer : DoomslugTimer
  deriving DecidableEq

/-- [doomslug.rs, lines 59-87] `Doomslug::new`; `now` is `clock.now()`. -/
def Doomslug.new (now largest_target_height endorsement_delay min_delay delay_step max_delay :
    Nat) : Doomslug where
  largest_target_height := largest_target_height
  largest_final_height := 0
  tip := ⟨CryptoHash.zero, 0⟩
  endorsement_pending := false
  timer :=
    { started := now
      last_endorsement_sent := now
      height := 0
      endorsement_delay := endorsement_delay
      min_delay := min_delay
      delay_step := delay_step
      max_delay := max_delay }

/-- [doomslug.rs, lines 95-108] `Doomslug::set_tip`; `now` is `clock.now()`. -/
def Doomslug.set_tip (ds : Doomslug) (now : Nat) (block_hash : CryptoHash)
    (height last_final_height : Nat) : Doomslug :=
  { ds with
    tip := ⟨block_hash, height⟩
    largest_final_height := last_final_height
    endorsement_pending := true
    timer := { ds.timer with height := height + 1, started := now } }

/-- [doomslug.rs, lines 110-122] `Doomslug::create_approval` (always `Some`
since the signer argument is commented out in the source). -/
def Doomslug.create_approval (ds : Doomslug) (target_height : Nat) : Option Approval :=
  some (Approval.new ds.tip.block_hash ds.tip.height target_height)

/-- [doomslug.rs, lines 130-132] the `skip_delay` computed at the top of
each `process_timer` iteration:
`timer.get_delay(timer.height.saturating_sub(largest_final_height))`. -/
def Doomslug.skipDelay (ds : Doomslug) : Nat :=
  ds.timer.get_delay (ds.timer.height - ds.largest_final_height)

/-- [doomslug.rs, lines 140-152] the endorsement-deadline branch of one
`process_timer` iteration: if an endorsement is pending and its deadline
`last_endorsement_sent + endorsement_delay` has been reached, service it
(emitting an approval for `tip.height + 1` only when
`tip.height >= largest_target_height`), record `last_endorsement_sent = now`
and clear `endorsement_pending`. -/
def Doomslug.endorseStep (ds : Doomslug) (now : Nat) : Doomslug × List Approval :=
  if ds.endorsement_pending = true ∧
      ds.timer.last_endorsement_sent + ds.timer.endorsement_delay ≤ now then
    if ds.largest_target_height ≤ ds.tip.height then
      ({ ds with
          largest_target_height := ds.tip.height + 1
          endorsement_pending := false
          timer := { ds.timer with last_endorsement_sent := now } },
        (ds.create_approval (ds.tip.height + 1)).toList)
    else
      ({ ds with
          endorsement_pending := false
          timer := { ds.timer with last_endorsement_sent := now } },
        [])
  else (ds, [])

/-- [doomslug.rs, lines 155-167] the skip-deadline branch body of one
`process_timer` iteration (executed when `now >= timer.started + skip_delay`):
raise `largest_target_height` to at least `timer.height + 1`, emit an
approval for `timer.height + 1`, advance `timer.started` by `skip_delay`
(never reset to `now`) and increment `timer.height`. -/
def Doomslug.skipStep (ds1 : Doomslug) (skip_delay : Nat) : Doomslug × List Approval :=
  ({ ds1 with
      largest_target_height := max (ds1.timer.height + 1) ds1.largest_target_height
      timer := { ds1.timer with
        started := ds1.timer.started + skip_delay
        height := ds1.timer.height + 1 } },
    (ds1.create_approval (ds1.timer.height + 1)).toList)

/-- [doomslug.rs, lines 129-170] one iteration of the `process_timer` loop.
Returns the new state, the approvals pushed during this iteration, and
whether the skip deadline fired (the loop continues only in that case). -/
def Doomslug.timerIter (ds : Doomslug) (now : Nat) : Doomslug × List Approval × Bool :=
  let skip_delay := ds.skipDelay
  let e := ds.endorseStep now
  if e.1.timer.started + skip_delay ≤ now then
    let s := e.1.skipStep skip_delay
    (s.1, e.2 ++ s.2, true)
  else
    (e.1, e.2, false)

/-- [doomslug.rs, lines 126-173] the `process_timer` loop with an explicit
fuel argument: runs `Doomslug.timerIter` while the skip deadline keeps
firing, for at most `fuel` iterations, concatenating the approvals. -/
def Doomslug.processIters (now : Nat) : Nat → Doomslug → Doomslug × List Approval
  | 0, ds => (ds, [])
  | fuel + 1, ds =>
    let r := ds.timerIter now
    if r.2.2 = true then
      let rest := Doomslug.processIters now fuel r.1
      (rest.1, r.2.1 ++ rest.2)
    else
      (r.1, r.2.1)

/-- [doomslug.rs, lines 126-173] `Doomslug::process_timer`; `now` is
`clock.now()`. Returns the final state and the emitted approvals. -/
def Doomslug.process_timer (ds : Doomslug) (now : Nat) : Doomslug × List Approval :=
  Doomslug.processIters now MAX_TIMER_ITERS ds

/-- A sequence of `process_timer` calls at the given instants; every emitted
approval is paired with the instant of the call that produced it. -/
def Doomslug.runTimer (ds : Doomslug) : List Nat → Doomslug × List (Nat × Approval)
  | [] => (ds, [])
  | t :: ts =>
    let p := ds.process_timer t
    let r := p.1.runTimer ts
    (r.1, (p.2.map fun a => (t, a)) ++ r.2)

/-- The delay-schedule formula as the specification states it, over
integers: `min(max_delay, min_delay + delay_step * max(n - 2, 0))` with `n`
clamped to the largest representable step count (`u32::MAX`) before the
multiplication. -/
def specSkipDelay (t : DoomslugTimer) (n : Nat) : Nat :=
  min t.max_delay
    (t.min_delay + t.delay_step * (max (min (n : Int) ((2 : Int) ^ 32 - 1) - 2) 0).toNat)

/-!
Concrete sample states replaying the run of the repository's own unit test
`test_endorsements_and_skips_basic` (delays: endorsement 400, min 1000,
step 100, max 3000; the fake clock starts at 0; instants are in
milliseconds there, plain naturals here).
-/

/-- A sample 32-byte hash (the concrete bytes are irrelevant to the core). -/
def sampleHashA : CryptoHash := ⟨List.replicate 32 1⟩

/-- A second sample hash. -/
def sampleHashB : CryptoHash := ⟨List.replicate 32 2⟩

/-- A third sample hash. -/
def sampleHashC : CryptoHash := ⟨List.replicate 32 3⟩

/-- State freshly constructed at instant 0, as in the unit test. -/
def sampleNew : Doomslug := Doomslug.new 0 0 400 1000 100 3000

/-- After `set_tip(hash A, height 1, last final 1)` at instant 0. -/
def sampleTip1 : Doomslug := sampleNew.set_tip 0 sampleHashA 1 1

/-- After the endorsement for target 2 was serviced at instant 400. -/
def sampleServed : Doomslug := (sampleTip1.process_timer 400).1

/-- After the skip for target 3 fired at instant 1000. -/
def sampleSkipped : Doomslug := (sampleServed.process_timer 1000).1

/-- After `set_tip(hash B, height 2, last final 0)` at instant 1000: the
tip height 2 is below `largest_target_height = 3`. -/
def sampleStale : Doomslug := sampleSkipped.set_tip 1000 sampleHashB 2 0

/-- After the endorsement deadline was serviced, without emitting, at
instant 1400. -/
def sampleStaleServed : Doomslug := (sampleStale.process_timer 1400).1

/-- After `set_tip(hash C, height 3, last final 0)` at instant 2000. Here
`last_endorsement_sent = 1400`, so the endorsement deadline 1800 already
lies in the past at the time of this tip update. -/
def sampleFresh : Doomslug := sampleStaleServed.set_tip 2000 sampleHashC 3 0

/-! ### Basic facts about approvals -/

/-- An approval for the direct successor of the parent height is tagged
`Endorsement` and carries the parent hash. -/
theorem Approval.new_succ_inner (h : CryptoHash) (p : Nat) :
    (Approval.new h p (p + 1)).inner = ApprovalInner.Endorsement h := by
  simp [Approval.new, ApprovalInner.new]

/-- An approval for any other target is tagged `Skip` and carries the
parent height. -/
theorem Approval.new_ne_inner (h : CryptoHash) (p t : Nat) (hne : t ≠ p + 1) :
    (Approval.new h p t).inner = ApprovalInner.Skip p := by
  simp [Approval.new, ApprovalInner.new, hne]

/-! ### The endorsement-deadline branch -/

/-- If no endorsement is pending or its deadline has not been reached, the
endorsement branch does nothing. -/
theorem endorseStep_of_not_reached (ds : Doomslug) (now : Nat)
    (h : ¬ (ds.endorsement_pending = true ∧
      ds.timer.last_endorsement_sent + ds.timer.endorsement_delay ≤ now)) :
    ds.endorseStep now = (ds, []) := by
  unfold Doomslug.endorseStep
  rw [if_neg h]

/-- With no endorsement pending, the endorsement branch does nothing. -/
theorem endorseStep_of_pending_false (ds : Doomslug) (now : Nat)
    (h : ds.endorsement_pending = false) :
    ds.endorseStep now = (ds, []) := by
  apply endorseStep_of_not_reached
  simp [h]

/-- Serviced endorsement deadline with a fresh tip: the canonical approval
is emitted, `largest_target_height` becomes `tip.height + 1`,
`last_endorsement_sent` becomes `now` and the pending flag clears. -/
theorem endorseStep_of_reached_fresh (ds : Doomslug) (now : Nat)
    (hp : ds.endorsement_pending = true)
    (hr : ds.timer.last_endorsement_sent + ds.timer.endorsement_delay ≤ now)
    (hf : ds.largest_target_height ≤ ds.tip.height) :
    ds.endorseStep now =
      ({ ds with
          largest_target_height := ds.tip.height + 1
          endorsement_pending := false
          timer := { ds.timer with last_endorsement_sent := now } },
        [Approval.new ds.tip.block_hash ds.tip.height (ds.tip.height + 1)]) := by
  unfold Doomslug.endorseStep
  rw [if_pos ⟨hp, hr⟩, if_pos hf]
  simp [Doomslug.create_approval]

/-- Serviced endorsement deadline with a stale tip: nothing is emitted but
`last_endorsement_sent` becomes `now` and the pending flag clears. -/
theorem endorseStep_of_reached_stale (ds : Doomslug) (now : Nat)
    (hp : ds.endorsement_pending = true)
    (hr : ds.timer.last_endorsement_sent + ds.timer.endorsement_delay ≤ now)
    (hf : ¬ ds.largest_target_height ≤ ds.tip.height) :
    ds.endorseStep now =
      ({ ds with
          endorsement_pending := false
          timer := { ds.timer with last_endorsement_sent := now } },
        []) := by
  unfold Doomslug.endorseStep
  rw [if_pos ⟨hp, hr⟩, if_neg hf]

/-- The endorsement branch never changes the tip. -/
theorem endorseStep_tip (ds : Doomslug) (now : Nat) :
    (ds.endorseStep now).1.tip = ds.tip := by
  unfold Doomslug.endorseStep
  split_ifs <;> rfl

/-- The endorsement branch never changes `timer.started`. -/
theorem endorseStep_started (ds : Doomslug) (now : Nat) :
    (ds.endorseStep now).1.timer.started = ds.timer.started := by
  unfold Doomslug.endorseStep
  split_ifs <;> rfl

/-- The endorsement branch never changes `timer.height`. -/
theorem endorseStep_height (ds : Doomslug) (now : Nat) :
    (ds.endorseStep now).1.timer.height = ds.timer.height := by
  unfold Doomslug.endorseStep
  split_ifs <;> rfl

/-- The endorsement branch never changes the configured delays nor
`largest_final_height`. -/
theorem endorseStep_config (ds : Doomslug) (now : Nat) :
    (ds.endorseStep now).1.timer.endorsement_delay = ds.timer.endorsement_delay ∧
    (ds.endorseStep now).1.timer.min_delay = ds.timer.min_delay ∧
    (ds.endorseStep now).1.timer.delay_step = ds.timer.delay_step ∧
    (ds.endorseStep now).1.timer.max_delay = ds.timer.max_delay ∧
    (ds.endorseStep now).1.largest_final_height = ds.largest_final_height := by
  unfold Doomslug.endorseStep
  split_ifs <;> exact ⟨rfl, rfl, rfl, rfl, rfl⟩

/-- The endorsement branch never lowers `largest_target_height`. -/
theorem endorseStep_largest_le (ds : Doomslug) (now : Nat) :
    ds.largest_target_height ≤ (ds.endorseStep now).1.largest_target_height := by
  unfold Doomslug.endorseStep
  split_ifs with h1 h2
  · simpa using Nat.le_succ_of_le h2
  · exact le_refl _
  · exact le_refl _

/-- The skip delay seen by the skip branch is the one computed before the
endorsement branch ran. -/
theorem endorseStep_skipDelay (ds : Doomslug) (now : Nat) :
    (ds.endorseStep now).1.skipDelay = ds.skipDelay := by
  unfold Doomslug.endorseStep Doomslug.skipDelay
  split_ifs <;> rfl

/-- If the pending flag survives the endorsement branch, the branch was a
no-op and the flag was set before. -/
theorem endorseStep_pending_true (ds : Doomslug) (now : Nat)
    (h : (ds.endorseStep now).1.endorsement_pending = true) :
    ds.endorseStep now = (ds, []) ∧ ds.endorsement_pending = true := by
  unfold Doomslug.endorseStep at h ⊢
  split_ifs at h ⊢ with h1 h2
  all_goals simp_all

/-- Every approval emitted by the endorsement branch is the canonical
endorsement of the current tip, and is emitted only once the deadline
`last_endorsement_sent + endorsement_delay` has been reached. -/
theorem endorseStep_out (ds : Doomslug) (now : Nat) :
    ∀ a ∈ (ds.endorseStep now).2,
      a = Approval.new ds.tip.block_hash ds.tip.height (ds.tip.height + 1) ∧
      ds.timer.last_endorsement_sent + ds.timer.endorsement_delay ≤ now := by
  unfold Doomslug.endorseStep
  split_ifs with h1 h2
  · intro a ha
    simp [Doomslug.create_approval] at ha
    exact ⟨ha, h1.2⟩
  · intro a ha
    simp at ha
  · intro a ha
    simp at ha

/-! ### The skip-deadline branch -/

/-- Field effects of the skip branch. -/
theorem skipStep_eq (ds : Doomslug) (d : Nat) :
    ds.skipStep d =
      ({ ds with
          largest_target_height := max (ds.timer.height + 1) ds.largest_target_height
          timer := { ds.timer with
            started := ds.timer.started + d
            height := ds.timer.height + 1 } },
        [Approval.new ds.tip.block_hash ds.tip.height (ds.timer.height + 1)]) := by
  unfold Doomslug.skipStep
  simp [Doomslug.create_approval]

/-! ### One iteration of the process_timer loop -/

/-- When the skip deadline (computed from the state at the top of the
iteration) has been reached, the iteration runs the endorsement branch,
then the skip branch, and reports that it fired. -/
theorem timerIter_of_fired (ds : Doomslug) (now : Nat)
    (h : ds.timer.started + ds.skipDelay ≤ now) :
    ds.timerIter now =
      (((ds.endorseStep now).1.skipStep ds.skipDelay).1,
        (ds.endorseStep now).2 ++ ((ds.endorseStep now).1.skipStep ds.skipDelay).2,
        true) := by
  unfold Doomslug.timerIter
  rw [if_pos (by rw [endorseStep_started]; exact h)]

/-- When the skip deadline has not been reached, the iteration runs only
the endorsement branch and reports that it did not fire. -/
theorem timerIter_of_not_fired (ds : Doomslug) (now : Nat)
    (h : ¬ ds.timer.started + ds.skipDelay ≤ now) :
    ds.timerIter now = ((ds.endorseStep now).1, (ds.endorseStep now).2, false) := by
  unfold Doomslug.timerIter
  rw [if_neg (by rw [endorseStep_started]; exact h)]

/-- The third component of `timerIter` reports exactly whether the skip
deadline had been reached. -/
theorem timerIter_fired_iff (ds : Doomslug) (now : Nat) :
    (ds.timerIter now).2.2 = true ↔ ds.timer.started + ds.skipDelay ≤ now := by
  by_cases h : ds.timer.started + ds.skipDelay ≤ now
  · rw [timerIter_of_fired ds now h]
    simpa using h
  · rw [timerIter_of_not_fired ds now h]
    simpa using h

/-- One iteration never changes the tip, the configured delays or
`largest_final_height`, never decreases `timer.height` or
`largest_target_height`, and never sets the pending flag. -/
theorem timerIter_frame (ds : Doomslug) (now : Nat) :
    (ds.timerIter now).1.tip = ds.tip ∧
    (ds.timerIter now).1.timer.endorsement_delay = ds.timer.endorsement_delay ∧
    (ds.timerIter now).1.timer.min_delay = ds.timer.min_delay ∧
    (ds.timerIter now).1.timer.delay_step = ds.timer.delay_step ∧
    (ds.timerIter now).1.timer.max_delay = ds.timer.max_delay ∧
    (ds.timerIter now).1.largest_final_height = ds.largest_final_height ∧
    ds.timer.height ≤ (ds.timerIter now).1.timer.height ∧
    ds.largest_target_height ≤ (ds.timerIter now).1.largest_target_height ∧
    ((ds.timerIter now).1.endorsement_pending = true → ds.endorsement_pending = true) := by
  obtain ⟨hd, hm, hs, hx, hf⟩ := endorseStep_config ds now
  by_cases h : ds.timer.started + ds.skipDelay ≤ now
  · rw [timerIter_of_fired ds now h, skipStep_eq]
    refine ⟨endorseStep_tip ds now, hd, hm, hs, hx, hf, ?_, ?_, ?_⟩
    · simp [endorseStep_height ds now]
    · exact le_trans (endorseStep_largest_le ds now) (le_max_right _ _)
    · intro hp
      exact ((endorseStep_pending_true ds now (by simpa using hp)).2)
  · rw [timerIter_of_not_fired ds now h]
    refine ⟨endorseStep_tip ds now, hd, hm, hs, hx, hf, ?_, endorseStep_largest_le ds now, ?_⟩
    · simp [endorseStep_height ds now]
    · intro hp
      exact (endorseStep_pending_true ds now hp).2

/-! ### The bounded loop -/

/-- Unfolding lemma for one unit of fuel. -/
theorem processIters_succ (now fuel : Nat) (ds : Doomslug) :
    Doomslug.processIters now (fuel + 1) ds =
      if (ds.timerIter now).2.2 = true then
        ((Doomslug.processIters now fuel (ds.timerIter now).1).1,
          (ds.timerIter now).2.1 ++ (Doomslug.processIters now fuel (ds.timerIter now).1).2)
      else ((ds.timerIter now).1, (ds.timerIter now).2.1) := by
  rfl

/-- The loop never changes the tip, the configured delays or
`largest_final_height`, never decreases `timer.height` or
`largest_target_height`, and never sets the pending flag. -/
theorem processIters_frame (now : Nat) :
    ∀ (fuel : Nat) (ds : Doomslug),
    (Doomslug.processIters now fuel ds).1.tip = ds.tip ∧
    (Doomslug.processIters now fuel ds).1.timer.endorsement_delay =
      ds.timer.endorsement_delay ∧
    (Doomslug.processIters now fuel ds).1.timer.min_delay = ds.timer.min_delay ∧
    (Doomslug.processIters now fuel ds).1.timer.delay_step = ds.timer.delay_step ∧
    (Doomslug.processIters now fuel ds).1.timer.max_delay = ds.timer.max_delay ∧
    (Doomslug.processIters now fuel ds).1.largest_final_height = ds.largest_final_height ∧
    ds.timer.height ≤ (Doomslug.processIters now fuel ds).1.timer.height ∧
    ds.largest_target_height ≤ (Doomslug.processIters now fuel ds).1.largest_target_height ∧
    ((Doomslug.processIters now fuel ds).1.endorsement_pending = true →
      ds.endorsement_pending = true)
  | 0, ds => by
    exact ⟨rfl, rfl, rfl, rfl, rfl, rfl, le_refl _, le_refl _, fun h => h⟩
  | fuel + 1, ds => by
    rw [processIters_succ]
    obtain ⟨t1, t2, t3, t4, t5, t6, t7, t8, t9⟩ := timerIter_frame ds now
    by_cases h : (ds.timerIter now).2.2 = true
    · rw [if_pos h]
      obtain ⟨i1, i2, i3, i4, i5, i6, i7, i8, i9⟩ :=
        processIters_frame now fuel (ds.timerIter now).1
      exact ⟨by rw [i1, t1], by rw [i2, t2], by rw [i3, t3], by rw [i4, t4],
        by rw [i5, t5], by rw [i6, t6], le_trans t7 i7, le_trans t8 i8,
        fun hp => t9 (i9 hp)⟩
    · rw [if_neg h]
      exact ⟨t1, t2, t3, t4, t5, t6, t7, t8, t9⟩

/-- Unfolding lemma when the skip deadline fired. -/
theorem processIters_succ_fired (now fuel : Nat) (ds : Doomslug)
    (h : (ds.timerIter now).2.2 = true) :
    Doomslug.processIters now (fuel + 1) ds =
      ((Doomslug.processIters now fuel (ds.timerIter now).1).1,
        (ds.timerIter now).2.1 ++
          (Doomslug.processIters now fuel (ds.timerIter now).1).2) := by
  rw [processIters_succ, if_pos h]

/-- Unfolding lemma when the skip deadline did not fire. -/
theorem processIters_succ_not_fired (now fuel : Nat) (ds : Doomslug)
    (h : ¬ (ds.timerIter now).2.2 = true) :
    Doomslug.processIters now (fuel + 1) ds =
      ((ds.timerIter now).1, (ds.timerIter now).2.1) := by
  rw [processIters_succ, if_neg h]

/-- Projections of the skip branch: pending flag unchanged. -/
theorem skipStep_pending (ds : Doomslug) (d : Nat) :
    (ds.skipStep d).1.endorsement_pending = ds.endorsement_pending := rfl

/-- Projections of the skip branch: `last_endorsement_sent` unchanged. -/
theorem skipStep_les (ds : Doomslug) (d : Nat) :
    (ds.skipStep d).1.timer.last_endorsement_sent = ds.timer.last_endorsement_sent := rfl

/-- Projections of the skip branch: tip unchanged. -/
theorem skipStep_tip (ds : Doomslug) (d : Nat) : (ds.skipStep d).1.tip = ds.tip := rfl

/-- Projections of the skip branch: the timed height increments. -/
theorem skipStep_height (ds : Doomslug) (d : Nat) :
    (ds.skipStep d).1.timer.height = ds.timer.height + 1 := rfl

/-- Projections of the skip branch: `started` advances by the delay. -/
theorem skipStep_started (ds : Doomslug) (d : Nat) :
    (ds.skipStep d).1.timer.started = ds.timer.started + d := rfl

/-- Projections of the skip branch: the emitted approval. -/
theorem skipStep_out (ds : Doomslug) (d : Nat) :
    (ds.skipStep d).2 =
      [Approval.new ds.tip.block_hash ds.tip.height (ds.timer.height + 1)] := rfl

/-- With no endorsement pending and the timed height already beyond the
tip, the loop keeps the pending flag clear, preserves
`last_endorsement_sent`, and emits no `Endorsement`-tagged approval. -/
theorem processIters_no_pending (now : Nat) :
    ∀ (fuel : Nat) (ds : Doomslug),
    ds.endorsement_pending = false →
    ds.tip.height + 1 ≤ ds.timer.height →
    (Doomslug.processIters now fuel ds).1.endorsement_pending = false ∧
    (Doomslug.processIters now fuel ds).1.timer.last_endorsement_sent =
      ds.timer.last_endorsement_sent ∧
    ∀ a ∈ (Doomslug.processIters now fuel ds).2, a.inner.isEndorsement = false
  | 0, ds, hp, _ => by
    refine ⟨hp, rfl, ?_⟩
    intro a ha
    simp [Doomslug.processIters] at ha
  | fuel + 1, ds, hp, hinv => by
    have he := endorseStep_of_pending_false ds now hp
    have he1 : (ds.endorseStep now).1 = ds := by rw [he]
    have he2 : (ds.endorseStep now).2 = [] := by rw [he]
    by_cases h : ds.timer.started + ds.skipDelay ≤ now
    · have hit := timerIter_of_fired ds now h
      have hfired : (ds.timerIter now).2.2 = true := by rw [hit]
      have hst1 : (ds.timerIter now).1 = (ds.skipStep ds.skipDelay).1 := by
        rw [hit, he1]
      have hout : (ds.timerIter now).2.1 = (ds.skipStep ds.skipDelay).2 := by
        rw [hit]
        show (ds.endorseStep now).2 ++ ((ds.endorseStep now).1.skipStep ds.skipDelay).2 = _
        rw [he1, he2, List.nil_append]
      rw [processIters_succ_fired now fuel ds hfired, hst1, hout]
      have hp2 : (ds.skipStep ds.skipDelay).1.endorsement_pending = false := by
        rw [skipStep_pending]; exact hp
      have hinv2 : (ds.skipStep ds.skipDelay).1.tip.height + 1 ≤
          (ds.skipStep ds.skipDelay).1.timer.height := by
        rw [skipStep_tip, skipStep_height]
        omega
      obtain ⟨i1, i2, i3⟩ := processIters_no_pending now fuel _ hp2 hinv2
      refine ⟨i1, by rw [i2, skipStep_les], ?_⟩
      intro a ha
      rw [skipStep_out] at ha
      simp only [List.mem_append, List.mem_singleton] at ha
      rcases ha with ha | ha
      · subst ha
        rw [Approval.new_ne_inner ds.tip.block_hash ds.tip.height (ds.timer.height + 1)
          (by omega)]
        rfl
      · exact i3 a ha
    · have hit := timerIter_of_not_fired ds now h
      have hnf : ¬ (ds.timerIter now).2.2 = true := by rw [hit]; simp
      rw [processIters_succ_not_fired now fuel ds hnf, hit, he1, he2]
      refine ⟨hp, rfl, ?_⟩
      intro a ha
      simp at ha

/-- Counting distributes over concatenation. -/
theorem endorsementCount_append (l1 l2 : List Approval) :
    endorsementCount (l1 ++ l2) = endorsementCount l1 + endorsementCount l2 := by
  simp [endorsementCount]

/-- A list with no `Endorsement`-tagged element counts zero. -/
theorem endorsementCount_eq_zero (l : List Approval)
    (h : ∀ a ∈ l, a.inner.isEndorsement = false) : endorsementCount l = 0 := by
  unfold endorsementCount
  rw [List.countP_eq_zero]
  intro a ha
  simp [h a ha]

/-- Conversely, a zero count means no `Endorsement`-tagged element. -/
theorem eq_false_of_endorsementCount_eq_zero (l : List Approval)
    (h : endorsementCount l = 0) : ∀ a ∈ l, a.inner.isEndorsement = false := by
  unfold endorsementCount at h
  rw [List.countP_eq_zero] at h
  intro a ha
  have := h a ha
  simpa using this

/-- The canonical endorsement of a tip counts one. -/
theorem endorsementCount_succ_singleton (h : CryptoHash) (p : Nat) :
    endorsementCount [Approval.new h p (p + 1)] = 1 := by
  simp [endorsementCount, List.countP_cons, Approval.new_succ_inner, ApprovalInner.isEndorsement]

/-- A skip-targeted approval counts zero. -/
theorem endorsementCount_ne_singleton (h : CryptoHash) (p t : Nat) (hne : t ≠ p + 1) :
    endorsementCount [Approval.new h p t] = 0 := by
  simp [endorsementCount, List.countP_cons, Approval.new_ne_inner h p t hne,
    ApprovalInner.isEndorsement]

/-- Once serviced, the endorsement branch clears the pending flag. -/
theorem endorseStep_pending_of_reached (ds : Doomslug) (now : Nat)
    (hp : ds.endorsement_pending = true)
    (hr : ds.timer.last_endorsement_sent + ds.timer.endorsement_delay ≤ now) :
    (ds.endorseStep now).1.endorsement_pending = false := by
  unfold Doomslug.endorseStep
  rw [if_pos ⟨hp, hr⟩]
  split_ifs <;> rfl

/-- Once serviced, the endorsement branch records `last_endorsement_sent = now`. -/
theorem endorseStep_les_of_reached (ds : Doomslug) (now : Nat)
    (hp : ds.endorsement_pending = true)
    (hr : ds.timer.last_endorsement_sent + ds.timer.endorsement_delay ≤ now) :
    (ds.endorseStep now).1.timer.last_endorsement_sent = now := by
  unfold Doomslug.endorseStep
  rw [if_pos ⟨hp, hr⟩]
  split_ifs <;> rfl

/-- Serviced with a fresh tip: exactly the canonical endorsement is emitted. -/
theorem endorseStep_out_of_reached_fresh (ds : Doomslug) (now : Nat)
    (hp : ds.endorsement_pending = true)
    (hr : ds.timer.last_endorsement_sent + ds.timer.endorsement_delay ≤ now)
    (hf : ds.largest_target_height ≤ ds.tip.height) :
    (ds.endorseStep now).2 =
      [Approval.new ds.tip.block_hash ds.tip.height (ds.tip.height + 1)] := by
  rw [endorseStep_of_reached_fresh ds now hp hr hf]

/-- Serviced with a stale tip: nothing is emitted. -/
theorem endorseStep_out_of_reached_stale (ds : Doomslug) (now : Nat)
    (hp : ds.endorsement_pending = true)
    (hr : ds.timer.last_endorsement_sent + ds.timer.endorsement_delay ≤ now)
    (hf : ¬ ds.largest_target_height ≤ ds.tip.height) :
    (ds.endorseStep now).2 = [] := by
  rw [endorseStep_of_reached_stale ds now hp hr hf]

/-- Projections of the skip branch: the endorsement delay is unchanged. -/
theorem skipStep_delay (ds : Doomslug) (d : Nat) :
    (ds.skipStep d).1.timer.endorsement_delay = ds.timer.endorsement_delay := rfl
/-- Componentwise unfolding (fired, state). -/
theorem processIters_fired_fst (now fuel : Nat) (ds : Doomslug)
    (h : (ds.timerIter now).2.2 = true) :
    (Doomslug.processIters now (fuel + 1) ds).1 =
      (Doomslug.processIters now fuel (ds.timerIter now).1).1 := by
  rw [processIters_succ_fired now fuel ds h]

/-- Componentwise unfolding (fired, output). -/
theorem processIters_fired_snd (now fuel : Nat) (ds : Doomslug)
    (h : (ds.timerIter now).2.2 = true) :
    (Doomslug.processIters now (fuel + 1) ds).2 =
      (ds.timerIter now).2.1 ++ (Doomslug.processIters now fuel (ds.timerIter now).1).2 := by
  rw [processIters_succ_fired now fuel ds h]

/-- Componentwise unfolding (not fired, state). -/
theorem processIters_not_fired_fst (now fuel : Nat) (ds : Doomslug)
    (h : ¬ (ds.timerIter now).2.2 = true) :
    (Doomslug.processIters now (fuel + 1) ds).1 = (ds.timerIter now).1 := by
  rw [processIters_succ_not_fired now fuel ds h]

/-- Componentwise unfolding (not fired, output). -/
theorem processIters_not_fired_snd (now fuel : Nat) (ds : Doomslug)
    (h : ¬ (ds.timerIter now).2.2 = true) :
    (Doomslug.processIters now (fuel + 1) ds).2 = (ds.timerIter now).2.1 := by
  rw [processIters_succ_not_fired now fuel ds h]

/-- Master per-call lemma: over one run of the loop, the pending flag acts
as a budget of one for serviced endorsements; every `Endorsement`-tagged
output is the canonical endorsement of the current tip, emitted only once
the deadline `last_endorsement_sent + endorsement_delay` was reached; and
if the pending flag survives, so does `last_endorsement_sent`. -/
theorem processIters_endorsements (now : Nat) :
    ∀ (fuel : Nat) (ds : Doomslug),
    ds.tip.height + 1 ≤ ds.timer.height →
    endorsementCount (Doomslug.processIters now fuel ds).2 +
        (if (Doomslug.processIters now fuel ds).1.endorsement_pending = true then 1 else 0) ≤
      (if ds.endorsement_pending = true then 1 else 0) ∧
    (∀ a ∈ (Doomslug.processIters now fuel ds).2, a.inner.isEndorsement = true →
      a = Approval.new ds.tip.block_hash ds.tip.height (ds.tip.height + 1) ∧
      ds.timer.last_endorsement_sent + ds.timer.endorsement_delay ≤ now) ∧
    ((Doomslug.processIters now fuel ds).1.endorsement_pending = true →
      (Doomslug.processIters now fuel ds).1.timer.last_endorsement_sent =
        ds.timer.last_endorsement_sent)
  | 0, ds, hinv => by
    have h1 : (Doomslug.processIters now 0 ds).1 = ds := rfl
    have h2 : (Doomslug.processIters now 0 ds).2 = [] := rfl
    rw [h1, h2]
    refine ⟨?_, ?_, fun _ => rfl⟩
    · simp [endorsementCount]
    · intro a ha
      simp at ha
  | fuel + 1, ds, hinv => by
    by_cases hp : ds.endorsement_pending = true
    · by_cases hr : ds.timer.last_endorsement_sent + ds.timer.endorsement_delay ≤ now
      · -- the endorsement deadline is serviced by the first iteration
        have hpend1 := endorseStep_pending_of_reached ds now hp hr
        by_cases h : ds.timer.started + ds.skipDelay ≤ now
        · have hit := timerIter_of_fired ds now h
          have hfired : (ds.timerIter now).2.2 = true := by rw [hit]
          have hst1 : (ds.timerIter now).1 =
              ((ds.endorseStep now).1.skipStep ds.skipDelay).1 := by rw [hit]
          have hout : (ds.timerIter now).2.1 =
              (ds.endorseStep now).2 ++ ((ds.endorseStep now).1.skipStep ds.skipDelay).2 := by
            rw [hit]
          rw [processIters_fired_fst now fuel ds hfired,
            processIters_fired_snd now fuel ds hfired, hst1, hout]
          have hp2 : ((ds.endorseStep now).1.skipStep ds.skipDelay).1.endorsement_pending =
              false := by
            rw [skipStep_pending]
            exact hpend1
          have hinv2 : ((ds.endorseStep now).1.skipStep ds.skipDelay).1.tip.height + 1 ≤
              ((ds.endorseStep now).1.skipStep ds.skipDelay).1.timer.height := by
            rw [skipStep_tip, endorseStep_tip, skipStep_height, endorseStep_height]
            omega
          obtain ⟨i1, i2, i3⟩ := processIters_no_pending now fuel _ hp2 hinv2
          have hskipout : ((ds.endorseStep now).1.skipStep ds.skipDelay).2 =
              [Approval.new ds.tip.block_hash ds.tip.height (ds.timer.height + 1)] := by
            rw [skipStep_out, endorseStep_tip, endorseStep_height]
          have hskipzero :
              endorsementCount ((ds.endorseStep now).1.skipStep ds.skipDelay).2 = 0 := by
            rw [hskipout]
            exact endorsementCount_ne_singleton _ _ _ (by omega)
          have hrest : endorsementCount
              (Doomslug.processIters now fuel
                ((ds.endorseStep now).1.skipStep ds.skipDelay).1).2 = 0 :=
            endorsementCount_eq_zero _ i3
          refine ⟨?_, ?_, ?_⟩
          · rw [endorsementCount_append, endorsementCount_append, hskipzero, hrest, i1]
            by_cases hf : ds.largest_target_height ≤ ds.tip.height
            · rw [endorseStep_out_of_reached_fresh ds now hp hr hf,
                endorsementCount_succ_singleton]
              simp [hp]
            · rw [endorseStep_out_of_reached_stale ds now hp hr hf]
              simp [endorsementCount]
          · intro a ha hend
            rw [List.mem_append, List.mem_append] at ha
            rcases ha with (ha | ha) | ha
            · obtain ⟨haeq, _⟩ := endorseStep_out ds now a ha
              exact ⟨haeq, hr⟩
            · rw [hskipout, List.mem_singleton] at ha
              subst ha
              rw [Approval.new_ne_inner _ _ _ (by omega)] at hend
              exact absurd hend (by simp [ApprovalInner.isEndorsement])
            · exact absurd hend (by simp [i3 a ha])
          · intro hpend
            rw [i1] at hpend
            cases hpend
        · have hit := timerIter_of_not_fired ds now h
          have hnf : ¬ (ds.timerIter now).2.2 = true := by rw [hit]; simp
          have hti1 : (ds.timerIter now).1 = (ds.endorseStep now).1 := by rw [hit]
          have hti2 : (ds.timerIter now).2.1 = (ds.endorseStep now).2 := by rw [hit]
          rw [processIters_not_fired_fst now fuel ds hnf,
            processIters_not_fired_snd now fuel ds hnf, hti1, hti2]
          refine ⟨?_, ?_, ?_⟩
          · rw [hpend1]
            by_cases hf : ds.largest_target_height ≤ ds.tip.height
            · rw [endorseStep_out_of_reached_fresh ds now hp hr hf,
                endorsementCount_succ_singleton]
              simp [hp]
            · rw [endorseStep_out_of_reached_stale ds now hp hr hf]
              simp [endorsementCount]
          · intro a ha _
            obtain ⟨haeq, _⟩ := endorseStep_out ds now a ha
            exact ⟨haeq, hr⟩
          · intro hpend
            rw [hpend1] at hpend
            cases hpend
      · -- pending but the deadline has not been reached: no servicing
        have he := endorseStep_of_not_reached ds now (fun hc => hr hc.2)
        have he1 : (ds.endorseStep now).1 = ds := by rw [he]
        have he2 : (ds.endorseStep now).2 = [] := by rw [he]
        by_cases h : ds.timer.started + ds.skipDelay ≤ now
        · have hit := timerIter_of_fired ds now h
          have hfired : (ds.timerIter now).2.2 = true := by rw [hit]
          have hst1 : (ds.timerIter now).1 = (ds.skipStep ds.skipDelay).1 := by
            rw [hit, he1]
          have hout : (ds.timerIter now).2.1 = (ds.skipStep ds.skipDelay).2 := by
            rw [hit]
            show (ds.endorseStep now).2 ++
              ((ds.endorseStep now).1.skipStep ds.skipDelay).2 = _
            rw [he1, he2, List.nil_append]
          rw [processIters_fired_fst now fuel ds hfired,
            processIters_fired_snd now fuel ds hfired, hst1, hout]
          have hinv2 : (ds.skipStep ds.skipDelay).1.tip.height + 1 ≤
              (ds.skipStep ds.skipDelay).1.timer.height := by
            rw [skipStep_tip, skipStep_height]
            omega
          obtain ⟨i1, i2, i3⟩ := processIters_endorsements now fuel _ hinv2
          rw [skipStep_pending] at i1
          rw [skipStep_tip, skipStep_les, skipStep_delay] at i2
          rw [skipStep_les] at i3
          have hskipzero : endorsementCount (ds.skipStep ds.skipDelay).2 = 0 := by
            rw [skipStep_out]
            exact endorsementCount_ne_singleton _ _ _ (by omega)
          refine ⟨?_, ?_, i3⟩
          · rw [endorsementCount_append, hskipzero]
            simpa using i1
          · intro a ha hend
            rw [List.mem_append] at ha
            rcases ha with ha | ha
            · rw [skipStep_out, List.mem_singleton] at ha
              subst ha
              rw [Approval.new_ne_inner _ _ _ (by omega)] at hend
              exact absurd hend (by simp [ApprovalInner.isEndorsement])
            · exact i2 a ha hend
        · have hit := timerIter_of_not_fired ds now h
          have hnf : ¬ (ds.timerIter now).2.2 = true := by rw [hit]; simp
          have hti1 : (ds.timerIter now).1 = ds := by rw [hit, he1]
          have hti2 : (ds.timerIter now).2.1 = [] := by rw [hit, he2]
          rw [processIters_not_fired_fst now fuel ds hnf,
            processIters_not_fired_snd now fuel ds hnf, hti1, hti2]
          refine ⟨?_, ?_, fun _ => rfl⟩
          · simp [endorsementCount]
          · intro a ha
            simp at ha
    · -- no endorsement pending at all
      have hp0 : ds.endorsement_pending = false := by
        simpa using hp
      obtain ⟨i1, i2, i3⟩ := processIters_no_pending now (fuel + 1) ds hp0 hinv
      refine ⟨?_, ?_, fun _ => i2⟩
      · rw [endorsementCount_eq_zero _ i3, i1]
        simp
      · intro a ha hend
        exact absurd hend (by simp [i3 a ha])

/-- `process_timer` is the loop run with `MAX_TIMER_ITERS` units of fuel;
`MAX_TIMER_ITERS = 19 + 1` exposes the first iteration. -/
theorem process_timer_eq (ds : Doomslug) (now : Nat) :
    ds.process_timer now = Doomslug.processIters now (19 + 1) ds := rfl

/-- If neither deadline has been reached, a `process_timer` call is a
complete no-op. -/
theorem process_timer_noFire (ds : Doomslug) (now : Nat)
    (h1 : ¬ ds.timer.last_endorsement_sent + ds.timer.endorsement_delay ≤ now)
    (h2 : ¬ ds.timer.started + ds.skipDelay ≤ now) :
    ds.process_timer now = (ds, []) := by
  have he := endorseStep_of_not_reached ds now (fun hc => h1 hc.2)
  have he1 : (ds.endorseStep now).1 = ds := by rw [he]
  have he2 : (ds.endorseStep now).2 = [] := by rw [he]
  have hit := timerIter_of_not_fired ds now h2
  have hnf : ¬ (ds.timerIter now).2.2 = true := by rw [hit]; simp
  rw [process_timer_eq, processIters_succ_not_fired now 19 ds hnf, hit, he1, he2]

/-- If an endorsement is pending, its deadline has been reached and the tip
is fresh, the call emits exactly one `Endorsement`-tagged approval and
clears the pending flag. -/
theorem process_timer_service (ds : Doomslug) (now : Nat)
    (hp : ds.endorsement_pending = true)
    (hr : ds.timer.last_endorsement_sent + ds.timer.endorsement_delay ≤ now)
    (hf : ds.largest_target_height ≤ ds.tip.height)
    (hinv : ds.tip.height + 1 ≤ ds.timer.height) :
    endorsementCount (ds.process_timer now).2 = 1 ∧
    (ds.process_timer now).1.endorsement_pending = false ∧
    (ds.process_timer now).1.tip = ds.tip ∧
    ds.timer.height ≤ (ds.process_timer now).1.timer.height := by
  have hpend1 := endorseStep_pending_of_reached ds now hp hr
  have hEout := endorseStep_out_of_reached_fresh ds now hp hr hf
  rw [process_timer_eq]
  by_cases h : ds.timer.started + ds.skipDelay ≤ now
  · have hit := timerIter_of_fired ds now h
    have hfired : (ds.timerIter now).2.2 = true := by rw [hit]
    have hst1 : (ds.timerIter now).1 =
        ((ds.endorseStep now).1.skipStep ds.skipDelay).1 := by rw [hit]
    have hout : (ds.timerIter now).2.1 =
        (ds.endorseStep now).2 ++ ((ds.endorseStep now).1.skipStep ds.skipDelay).2 := by
      rw [hit]
    rw [processIters_fired_fst now 19 ds hfired, processIters_fired_snd now 19 ds hfired,
      hst1, hout]
    have hp2 : ((ds.endorseStep now).1.skipStep ds.skipDelay).1.endorsement_pending =
        false := by
      rw [skipStep_pending]
      exact hpend1
    have hinv2 : ((ds.endorseStep now).1.skipStep ds.skipDelay).1.tip.height + 1 ≤
        ((ds.endorseStep now).1.skipStep ds.skipDelay).1.timer.height := by
      rw [skipStep_tip, endorseStep_tip, skipStep_height, endorseStep_height]
      omega
    obtain ⟨i1, _, i3⟩ := processIters_no_pending now 19 _ hp2 hinv2
    obtain ⟨f1, _, _, _, _, _, f7, _, _⟩ := processIters_frame now 19
      ((ds.endorseStep now).1.skipStep ds.skipDelay).1
    have hskipzero :
        endorsementCount ((ds.endorseStep now).1.skipStep ds.skipDelay).2 = 0 := by
      rw [skipStep_out, endorseStep_tip, endorseStep_height]
      exact endorsementCount_ne_singleton _ _ _ (by omega)
    refine ⟨?_, i1, ?_, ?_⟩
    · rw [endorsementCount_append, endorsementCount_append, hskipzero,
        endorsementCount_eq_zero _ i3, hEout, endorsementCount_succ_singleton]
    · rw [f1, skipStep_tip, endorseStep_tip]
    · refine le_trans ?_ f7
      rw [skipStep_height, endorseStep_height]
      omega
  · have hit := timerIter_of_not_fired ds now h
    have hnf : ¬ (ds.timerIter now).2.2 = true := by rw [hit]; simp
    have hti1 : (ds.timerIter now).1 = (ds.endorseStep now).1 := by rw [hit]
    have hti2 : (ds.timerIter now).2.1 = (ds.endorseStep now).2 := by rw [hit]
    rw [processIters_not_fired_fst now 19 ds hnf, processIters_not_fired_snd now 19 ds hnf,
      hti1, hti2]
    refine ⟨?_, hpend1, endorseStep_tip ds now, ?_⟩
    · rw [hEout, endorsementCount_succ_singleton]
    · rw [endorseStep_height]

/-- The endorsement branch never emits a `Skip`-tagged approval. -/
theorem skipCount_endorseStep (ds : Doomslug) (now : Nat) :
    skipCount (ds.endorseStep now).2 = 0 := by
  unfold Doomslug.endorseStep
  split_ifs with h1 h2
  · simp [skipCount, Doomslug.create_approval, List.countP_cons,
      Approval.new_succ_inner, ApprovalInner.isSkip]
  · simp [skipCount]
  · simp [skipCount]

/-- Counting skips distributes over concatenation. -/
theorem skipCount_append (l1 l2 : List Approval) :
    skipCount (l1 ++ l2) = skipCount l1 + skipCount l2 := by
  simp [skipCount]

/-- Each loop iteration emits at most one `Skip`-tagged approval, so the
loop emits at most `fuel` of them. -/
theorem processIters_skipCount (now : Nat) :
    ∀ (fuel : Nat) (ds : Doomslug),
    skipCount (Doomslug.processIters now fuel ds).2 ≤ fuel
  | 0, ds => by
    have h2 : (Doomslug.processIters now 0 ds).2 = [] := rfl
    rw [h2]
    simp [skipCount]
  | fuel + 1, ds => by
    by_cases hfired : (ds.timerIter now).2.2 = true
    · rw [processIters_fired_snd now fuel ds hfired]
      have hout : (ds.timerIter now).2.1 =
          (ds.endorseStep now).2 ++ ((ds.endorseStep now).1.skipStep ds.skipDelay).2 := by
        rw [timerIter_of_fired ds now ((timerIter_fired_iff ds now).mp hfired)]
      rw [hout, skipCount_append, skipCount_append, skipCount_endorseStep, skipStep_out]
      have hone : skipCount [Approval.new (ds.endorseStep now).1.tip.block_hash
          (ds.endorseStep now).1.tip.height ((ds.endorseStep now).1.timer.height + 1)] ≤ 1 :=
        List.countP_le_length _
      have hrest := processIters_skipCount now fuel (ds.timerIter now).1
      omega
    · rw [processIters_not_fired_snd now fuel ds hfired]
      have hti2 : (ds.timerIter now).2.1 = (ds.endorseStep now).2 := by
        rw [timerIter_of_not_fired ds now
          (fun hc => hfired ((timerIter_fired_iff ds now).mpr hc))]
      rw [hti2, skipCount_endorseStep]
      omega

/-- Unfolding: a trace starting with a call. -/
theorem runTimer_cons_fst (ds : Doomslug) (t : Nat) (ts : List Nat) :
    (ds.runTimer (t :: ts)).1 = ((ds.process_timer t).1.runTimer ts).1 := rfl

/-- Unfolding: output of a trace starting with a call. -/
theorem runTimer_cons_snd (ds : Doomslug) (t : Nat) (ts : List Nat) :
    (ds.runTimer (t :: ts)).2 =
      ((ds.process_timer t).2.map fun a => (t, a)) ++
        ((ds.process_timer t).1.runTimer ts).2 := rfl

/-- Stripping call instants from a time-stamped output list. -/
theorem map_snd_map_pair (t : Nat) (l : List Approval) :
    (l.map fun a => (t, a)).map Prod.snd = l := by
  simp

/-- Along any trace of calls with the pending flag clear, no endorsement
is ever emitted and the flag stays clear. -/
theorem runTimer_no_pending :
    ∀ (ts : List Nat) (s : Doomslug),
    s.endorsement_pending = false →
    s.tip.height + 1 ≤ s.timer.height →
    endorsementCount ((s.runTimer ts).2.map Prod.snd) = 0 ∧
    (s.runTimer ts).1.endorsement_pending = false
  | [], s, hp, _ => by
    have h2 : (s.runTimer []).2 = [] := rfl
    have h1 : (s.runTimer []).1 = s := rfl
    rw [h1, h2]
    exact ⟨by simp [endorsementCount], hp⟩
  | t :: ts, s, hp, hinv => by
    obtain ⟨i1, _, i3⟩ := processIters_no_pending t MAX_TIMER_ITERS s hp hinv
    obtain ⟨f1, _, _, _, _, _, f7, _, _⟩ := processIters_frame t MAX_TIMER_ITERS s
    have hpt : Doomslug.processIters t MAX_TIMER_ITERS s = s.process_timer t := rfl
    rw [hpt] at i1 i3 f1 f7
    have inv1 : (s.process_timer t).1.tip.height + 1 ≤
        (s.process_timer t).1.timer.height := by
      have e1 : (s.process_timer t).1.tip = s.tip := f1
      rw [e1]
      exact le_trans hinv f7
    obtain ⟨j1, j2⟩ := runTimer_no_pending ts (s.process_timer t).1 i1 inv1
    rw [runTimer_cons_snd, List.map_append, map_snd_map_pair, endorsementCount_append]
    refine ⟨?_, ?_⟩
    · rw [endorsementCount_eq_zero _ i3, j1]
    · rw [runTimer_cons_fst]
      exact j2

/-- Along any trace of calls, the pending flag is a budget of one for
emitted endorsements, and every emitted `Endorsement`-tagged approval is
the canonical endorsement of the tip, emitted only at a call no earlier
than `endorsement_delay` after the incoming `last_endorsement_sent`. -/
theorem runTimer_endorsements :
    ∀ (ts : List Nat) (s : Doomslug),
    s.tip.height + 1 ≤ s.timer.height →
    endorsementCount ((s.runTimer ts).2.map Prod.snd) +
        (if (s.runTimer ts).1.endorsement_pending = true then 1 else 0) ≤
      (if s.endorsement_pending = true then 1 else 0) ∧
    (∀ p ∈ (s.runTimer ts).2, (p.2 : Approval).inner.isEndorsement = true →
      p.2 = Approval.new s.tip.block_hash s.tip.height (s.tip.height + 1) ∧
      s.timer.last_endorsement_sent + s.timer.endorsement_delay ≤ p.1)
  | [], s, _ => by
    have h1 : (s.runTimer []).1 = s := rfl
    have h2 : (s.runTimer []).2 = [] := rfl
    rw [h1, h2]
    refine ⟨by simp [endorsementCount], ?_⟩
    intro p hp
    simp at hp
  | t :: ts, s, hinv => by
    obtain ⟨c1, c2, c3⟩ := processIters_endorsements t MAX_TIMER_ITERS s hinv
    obtain ⟨f1, f2, _, _, _, _, f7, _, _⟩ := processIters_frame t MAX_TIMER_ITERS s
    have hpt : Doomslug.processIters t MAX_TIMER_ITERS s = s.process_timer t := rfl
    rw [hpt] at c1 c2 c3 f1 f2 f7
    have inv1 : (s.process_timer t).1.tip.height + 1 ≤
        (s.process_timer t).1.timer.height := by
      have e1 : (s.process_timer t).1.tip = s.tip := f1
      rw [e1]
      exact le_trans hinv f7
    obtain ⟨j1, j2⟩ := runTimer_endorsements ts (s.process_timer t).1 inv1
    constructor
    · rw [runTimer_cons_snd, List.map_append, map_snd_map_pair, endorsementCount_append,
        runTimer_cons_fst]
      omega
    · intro p hpmem hpend
      rw [runTimer_cons_snd, List.mem_append] at hpmem
      rcases hpmem with hpmem | hpmem
      · obtain ⟨a, ham, hpa⟩ := List.mem_map.mp hpmem
        obtain ⟨haeq, hale⟩ := c2 a ham (by rw [← hpa] at hpend; exact hpend)
        subst hpa
        exact ⟨haeq, hale⟩
      · obtain ⟨hje, hjle⟩ := j2 p hpmem hpend
        have htip : (s.process_timer t).1.tip = s.tip := f1
        have hdel : (s.process_timer t).1.timer.endorsement_delay =
            s.timer.endorsement_delay := f2
        rw [htip] at hje
        refine ⟨hje, ?_⟩
        by_cases hpend1 : (s.process_timer t).1.endorsement_pending = true
        · have hles := c3 hpend1
          rw [hles, hdel] at hjle
          exact hjle
        · -- the pending flag is already clear: the tail emits nothing
          have hz : endorsementCount (((s.process_timer t).1.runTimer ts).2.map Prod.snd)
              = 0 := by
            have hp0 : (s.process_timer t).1.endorsement_pending = false := by
              simpa using hpend1
            exact (runTimer_no_pending ts (s.process_timer t).1 hp0 inv1).1
          have := eq_false_of_endorsementCount_eq_zero _ hz p.2
            (List.mem_map_of_mem Prod.snd hpmem)
          rw [this] at hpend
          cases hpend

/-- Under a sane configuration the skip delay is at least `min_delay`. -/
theorem get_delay_ge_min (t : DoomslugTimer) (hmx : t.min_delay ≤ t.max_delay) (n : Nat) :
    t.min_delay ≤ t.get_delay n := by
  unfold DoomslugTimer.get_delay
  exact le_min hmx (Nat.le_add_right _ _)

/-- With a pending endorsement, a fresh tip, a sane configuration
(`2 * endorsement_delay <= min_delay <= max_delay`), and
`last_endorsement_sent` not in the future of `timer.started`, a trace of
calls reaching the endorsement deadline emits exactly one
`Endorsement`-tagged approval. -/
theorem runTimer_exactly_one :
    ∀ (ts : List Nat) (s : Doomslug),
    s.endorsement_pending = true →
    s.tip.height + 1 ≤ s.timer.height →
    s.largest_target_height ≤ s.tip.height →
    2 * s.timer.endorsement_delay ≤ s.timer.min_delay →
    s.timer.min_delay ≤ s.timer.max_delay →
    s.timer.last_endorsement_sent ≤ s.timer.started →
    (∃ t ∈ ts, s.timer.last_endorsement_sent + s.timer.endorsement_delay ≤ t) →
    endorsementCount ((s.runTimer ts).2.map Prod.snd) = 1
  | [], _, _, _, _, _, _, _, hex => absurd hex (by simp)
  | t :: ts, s, hp, hinv, hf, h2d, hmx, hles, hex => by
    by_cases hr : s.timer.last_endorsement_sent + s.timer.endorsement_delay ≤ t
    · obtain ⟨c1, c2, c3, c4⟩ := process_timer_service s t hp hr hf hinv
      have inv1 : (s.process_timer t).1.tip.height + 1 ≤
          (s.process_timer t).1.timer.height := by
        rw [c3]
        omega
      obtain ⟨j1, _⟩ := runTimer_no_pending ts (s.process_timer t).1 c2 inv1
      rw [runTimer_cons_snd, List.map_append, map_snd_map_pair, endorsementCount_append,
        c1, j1]
    · have hnoskip : ¬ s.timer.started + s.skipDelay ≤ t := by
        intro hs
        apply hr
        have hge : s.timer.min_delay ≤ s.skipDelay := get_delay_ge_min s.timer hmx _
        omega
      have heq := process_timer_noFire s t hr hnoskip
      have hfst : (s.process_timer t).1 = s := by rw [heq]
      have hsnd : (s.process_timer t).2 = [] := by rw [heq]
      rw [runTimer_cons_snd, hfst, hsnd]
      simp only [List.map_nil, List.nil_append]
      apply runTimer_exactly_one ts s hp hinv hf h2d hmx hles
      obtain ⟨t0, ht0m, ht0⟩ := hex
      rcases List.mem_cons.mp ht0m with h0 | h0
      · subst h0
        exact absurd ht0 hr
      · exact ⟨t0, h0, ht0⟩

/-! ### Claim theorems -/

/-- Claim C4: for every height delta `n`, the skip delay computed by
`get_delay` equals `min(max_delay, min_delay + delay_step * max(n - 2, 0))`
with `n` first clamped to the largest representable step count
(`u32::MAX`) before the multiplication, so the computation does not
overflow. -/
theorem c4_get_delay_formula (t : DoomslugTimer) (n : Nat) :
    t.get_delay n = specSkipDelay t n := by
  simp only [DoomslugTimer.get_delay, specSkipDelay]
  have hall : ∀ m : Nat, m - 2 = (max ((m : Int) - 2) 0).toNat := by
    intro m
    rcases le_total (m : Int) 2 with hle | hle
    · rw [max_eq_right (by omega)]
      omega
    · rw [max_eq_left (by omega)]
      omega
  have hcast : ((min n U32_MAX : Nat) : Int) = min (n : Int) ((2 : Int) ^ 32 - 1) := by
    rw [Nat.cast_min]
    norm_num [U32_MAX]
  rw [hall (min n U32_MAX), hcast]

/-- Claim C5, counterexample to the universal statement: for the timer with
`min_delay = 5` and `max_delay = 3` (the code nowhere requires
`min_delay <= max_delay`), `get_delay 0 = 3` differs from `min_delay` even
though `0 <= 2`. -/
theorem c5_counterexample :
    (0 : Nat) ≤ 2 ∧
    DoomslugTimer.get_delay ⟨0, 0, 0, 400, 5, 100, 3⟩ 0 ≠
      (⟨0, 0, 0, 400, 5, 100, 3⟩ : DoomslugTimer).min_delay := by
  decide

/-- Claim C5 (amended): for every timer, `get_delay n <= max_delay` and
`get_delay` is non-decreasing in `n`; and whenever the configuration
additionally satisfies `min_delay <= max_delay`, `get_delay n = min_delay`
for every `n <= 2`. -/
theorem c5_get_delay_props (t : DoomslugTimer) (n m : Nat) :
    t.get_delay n ≤ t.max_delay ∧
    (n ≤ m → t.get_delay n ≤ t.get_delay m) ∧
    (t.min_delay ≤ t.max_delay → n ≤ 2 → t.get_delay n = t.min_delay) := by
  simp only [DoomslugTimer.get_delay]
  refine ⟨min_le_left _ _, ?_, ?_⟩
  · intro hnm
    exact min_le_min le_rfl (Nat.add_le_add_left
      (mul_le_mul_left' (Nat.sub_le_sub_right (min_le_min hnm le_rfl) 2) _) _)
  · intro hmx hn2
    have h0 : min n U32_MAX - 2 = 0 := by
      have hmn : min n U32_MAX ≤ n := min_le_left _ _
      omega
    rw [h0, Nat.mul_zero, Nat.add_zero, min_eq_right hmx]

/-- Claim C5 witness: the amended properties evaluated for the unit test's
configuration at `n = 1 <= 2 <= m = 2`. -/
theorem c5_witness :
    DoomslugTimer.get_delay ⟨0, 0, 0, 400, 1000, 100, 3000⟩ 1 ≤ 3000 ∧
    DoomslugTimer.get_delay ⟨0, 0, 0, 400, 1000, 100, 3000⟩ 1 ≤
      DoomslugTimer.get_delay ⟨0, 0, 0, 400, 1000, 100, 3000⟩ 2 ∧
    DoomslugTimer.get_delay ⟨0, 0, 0, 400, 1000, 100, 3000⟩ 1 = 1000 := by
  obtain ⟨h1, h2, h3⟩ := c5_get_delay_props ⟨0, 0, 0, 400, 1000, 100, 3000⟩ 1 2
  exact ⟨h1, h2 (by decide), h3 (by decide) (by decide)⟩

/-- Claim C6: after `set_tip(block_hash, height, last_final_height)` the
tip is replaced wholesale, `largest_final_height` takes the given value,
`timer.height = height + 1`, `timer.started` is the current time, and
`endorsement_pending = true`, regardless of prior state. -/
theorem c6_set_tip_effects (ds : Doomslug) (now : Nat) (h : CryptoHash)
    (height lf : Nat) :
    (ds.set_tip now h height lf).tip = ⟨h, height⟩ ∧
    (ds.set_tip now h height lf).largest_final_height = lf ∧
    (ds.set_tip now h height lf).timer.height = height + 1 ∧
    (ds.set_tip now h height lf).timer.started = now ∧
    (ds.set_tip now h height lf).endorsement_pending = true :=
  ⟨rfl, rfl, rfl, rfl, rfl⟩

/-- Claim C9: `set_tip` leaves `timer.last_endorsement_sent`,
`largest_target_height` and the four configured delay fields unchanged; in
particular the endorsement deadline `last_endorsement_sent +
endorsement_delay` compared by the next tick stays anchored to the last
time an endorsement deadline was serviced, not to the tip update. -/
theorem c9_set_tip_frame (ds : Doomslug) (now : Nat) (h : CryptoHash)
    (height lf : Nat) :
    (ds.set_tip now h height lf).timer.last_endorsement_sent =
      ds.timer.last_endorsement_sent ∧
    (ds.set_tip now h height lf).largest_target_height = ds.largest_target_height ∧
    (ds.set_tip now h height lf).timer.endorsement_delay = ds.timer.endorsement_delay ∧
    (ds.set_tip now h height lf).timer.min_delay = ds.timer.min_delay ∧
    (ds.set_tip now h height lf).timer.delay_step = ds.timer.delay_step ∧
    (ds.set_tip now h height lf).timer.max_delay = ds.timer.max_delay :=
  ⟨rfl, rfl, rfl, rfl, rfl, rfl⟩

/-- Claim C7: `largest_target_height` is monotonically non-decreasing
across both operations: `set_tip` leaves it unchanged and `process_timer`
never lowers it. -/
theorem c7_largest_target_monotone (ds : Doomslug) (now : Nat) (h : CryptoHash)
    (height lf : Nat) :
    ds.largest_target_height ≤ (ds.set_tip now h height lf).largest_target_height ∧
    ds.largest_target_height ≤ (ds.process_timer now).1.largest_target_height := by
  refine ⟨le_of_eq rfl, ?_⟩
  exact (processIters_frame now MAX_TIMER_ITERS ds).2.2.2.2.2.2.2.1

/-- Claim C8: a single `process_timer` call returns at most 20
`Skip`-tagged approvals, however large the elapsed time, because the loop
runs at most `MAX_TIMER_ITERS = 20` iterations and only the skip branch
can emit a `Skip`-tagged approval, once per iteration. -/
theorem c8_skip_bound (ds : Doomslug) (now : Nat) :
    skipCount (ds.process_timer now).2 ≤ 20 :=
  processIters_skipCount now MAX_TIMER_ITERS ds

/-- Claim C3: whenever an iteration of `process_timer` fires the skip
deadline, `timer.height` increases by exactly 1, `timer.started` advances
by exactly the `skip_delay` computed for that iteration (it is never reset
to `now`), and the fired deadline's scheduled instant was
`timer.started + skip_delay`, independent of how late the call came. -/
theorem c3_skip_schedule (ds : Doomslug) (now : Nat)
    (hfired : (ds.timerIter now).2.2 = true) :
    (ds.timerIter now).1.timer.height = ds.timer.height + 1 ∧
    (ds.timerIter now).1.timer.started = ds.timer.started + ds.skipDelay ∧
    ds.timer.started + ds.skipDelay ≤ now := by
  have h := (timerIter_fired_iff ds now).mp hfired
  have hit := timerIter_of_fired ds now h
  have h1 : (ds.timerIter now).1 =
      ((ds.endorseStep now).1.skipStep ds.skipDelay).1 := by rw [hit]
  rw [h1, skipStep_height, endorseStep_height, skipStep_started, endorseStep_started]
  exact ⟨rfl, rfl, h⟩

/-- Claim C3 witness: the first skip of the unit test's run fires at
instant 1000 with `started = 0` and `skip_delay = 1000`. -/
theorem c3_witness :
    (sampleTip1.timerIter 1000).2.2 = true ∧
    (sampleTip1.timerIter 1000).1.timer.height = sampleTip1.timer.height + 1 ∧
    (sampleTip1.timerIter 1000).1.timer.started =
      sampleTip1.timer.started + sampleTip1.skipDelay ∧
    sampleTip1.timer.started + sampleTip1.skipDelay ≤ 1000 :=
  ⟨by decide, c3_skip_schedule sampleTip1 1000 (by decide)⟩

/-- Claim C2, counterexample: constructing with `endorsement_delay = 400`
and `min_delay = 500` (violating `min_delay >= 2 * endorsement_delay`)
succeeds and yields an ordinary, fully formed state — `Doomslug::new`
returns `Self`, not a `Result`, and performs no validation. The violated
relation survives into the state, where it falsifies the condition of the
`debug_assert!` evaluated inside `process_timer`'s first iteration: the
check is deferred to a (debug-only) runtime condition inside the tick,
contrary to the claim. -/
theorem c2_counterexample :
    (Doomslug.new 0 0 400 500 100 3000).timer.min_delay <
      2 * (Doomslug.new 0 0 400 500 100 3000).timer.endorsement_delay ∧
    (Doomslug.new 0 0 400 500 100 3000).endorsement_pending = false ∧
    (Doomslug.new 0 0 400 500 100 3000).timer.height = 0 ∧
    ¬ 2 * (Doomslug.new 0 0 400 500 100 3000).timer.endorsement_delay ≤
      (Doomslug.new 0 0 400 500 100 3000).skipDelay := by
  decide

/-- Claim C2 (amended): `Doomslug::new` performs no validation of the delay
parameters — construction succeeds unconditionally, installing the given
delays verbatim — and for a violating configuration (with
`min_delay <= max_delay`) the relation `skip_delay >= 2 * endorsement_delay`
asserted by the `debug_assert!` inside `process_timer` is false in the
freshly constructed state: the constraint is only a runtime (debug)
condition inside the tick, not a construction-time error. -/
theorem c2_no_construction_check (now ltg e m st x : Nat) :
    (Doomslug.new now ltg e m st x).timer.endorsement_delay = e ∧
    (Doomslug.new now ltg e m st x).timer.min_delay = m ∧
    (Doomslug.new now ltg e m st x).timer.delay_step = st ∧
    (Doomslug.new now ltg e m st x).timer.max_delay = x ∧
    (m < 2 * e → m ≤ x →
      ¬ 2 * (Doomslug.new now ltg e m st x).timer.endorsement_delay ≤
        (Doomslug.new now ltg e m st x).skipDelay) := by
  refine ⟨rfl, rfl, rfl, rfl, ?_⟩
  intro hlt hle
  have he : (Doomslug.new now ltg e m st x).timer.endorsement_delay = e := rfl
  have hsd : (Doomslug.new now ltg e m st x).skipDelay = min x m := by
    show min x (m + st * (min (0 - 0) U32_MAX - 2)) = min x m
    norm_num
  rw [he, hsd, min_eq_right hle]
  omega

/-- Claim C2 witness: the amended statement applied at the violating
configuration `endorsement_delay = 400`, `min_delay = 500`. -/
theorem c2_witness :
    500 < 2 * 400 ∧ (500 : Nat) ≤ 3000 ∧
    ¬ 2 * (Doomslug.new 7 3 400 500 100 3000).timer.endorsement_delay ≤
      (Doomslug.new 7 3 400 500 100 3000).skipDelay := by
  refine ⟨by decide, by decide, ?_⟩
  exact (c2_no_construction_check 7 3 400 500 100 3000).2.2.2.2 (by decide) (by decide)

/-- Claim C10: if `process_timer` runs before any `set_tip`, then once
`min_delay` has elapsed since construction the first serviced skip
deadline produces an approval whose inner is `Endorsement` carrying the
default all-zero hash with target height 1 — because
`timer.height = tip.height = 0` makes the skip branch's target
`tip.height + 1`, which matches the endorsement condition of
`ApprovalInner::new` — rather than a `Skip` approval. -/
theorem c10_pre_tip_endorsement (now0 ltg e m st x now : Nat)
    (hmin : now0 + m ≤ now) :
    ((Doomslug.new now0 ltg e m st x).process_timer now).2.head? =
      some (Approval.new CryptoHash.zero 0 1) ∧
    (Approval.new CryptoHash.zero 0 1).inner = ApprovalInner.Endorsement CryptoHash.zero := by
  have hsd : (Doomslug.new now0 ltg e m st x).skipDelay = min x m := by
    show min x (m + st * (min (0 - 0) U32_MAX - 2)) = min x m
    norm_num
  have hcond : (Doomslug.new now0 ltg e m st x).timer.started +
      (Doomslug.new now0 ltg e m st x).skipDelay ≤ now := by
    rw [hsd]
    show now0 + min x m ≤ now
    exact le_trans (Nat.add_le_add_left (min_le_right x m) now0) hmin
  have hfired := (timerIter_fired_iff (Doomslug.new now0 ltg e m st x) now).mpr hcond
  have he := endorseStep_of_pending_false (Doomslug.new now0 ltg e m st x) now rfl
  have he1 : ((Doomslug.new now0 ltg e m st x).endorseStep now).1 =
      Doomslug.new now0 ltg e m st x := by rw [he]
  have he2 : ((Doomslug.new now0 ltg e m st x).endorseStep now).2 = [] := by rw [he]
  have hout : ((Doomslug.new now0 ltg e m st x).timerIter now).2.1 =
      ((Doomslug.new now0 ltg e m st x).skipStep
        (Doomslug.new now0 ltg e m st x).skipDelay).2 := by
    rw [timerIter_of_fired (Doomslug.new now0 ltg e m st x) now hcond]
    show ((Doomslug.new now0 ltg e m st x).endorseStep now).2 ++
      (((Doomslug.new now0 ltg e m st x).endorseStep now).1.skipStep
        (Doomslug.new now0 ltg e m st x).skipDelay).2 = _
    rw [he1, he2, List.nil_append]
  have hso : ((Doomslug.new now0 ltg e m st x).skipStep
      (Doomslug.new now0 ltg e m st x).skipDelay).2 =
      [Approval.new CryptoHash.zero 0 1] := rfl
  rw [process_timer_eq, processIters_fired_snd now 19 (Doomslug.new now0 ltg e m st x)
    hfired, hout, hso]
  exact ⟨rfl, Approval.new_succ_inner CryptoHash.zero 0⟩

/-- Claim C10 witness: with the unit test's delays and no tip, one call at
instant 1000 (i.e. `min_delay` after construction at 0) emits the
endorsement of the all-zero hash for target height 1 first. -/
theorem c10_witness :
    (0 : Nat) + 1000 ≤ 1000 ∧
    ((Doomslug.new 0 0 400 1000 100 3000).process_timer 1000).2.head? =
      some (Approval.new CryptoHash.zero 0 1) ∧
    (Approval.new CryptoHash.zero 0 1).inner = ApprovalInner.Endorsement CryptoHash.zero :=
  ⟨by decide, c10_pre_tip_endorsement 0 0 400 1000 100 3000 1000 (by decide)⟩

/-- Claim C1, counterexample (two scenarios from the repository's own unit
test run). First: after `set_tip(hash B, 2, 0)` at instant 1000 the tip
height 2 is below `largest_target_height = 3`, and the following calls at
instants 1400 and 1000000 — both far past every deadline — emit no
endorsement at all (the deadline is serviced without an approval and the
pending flag clears), refuting "exactly one Endorsement is produced".
Second: after `set_tip(hash C, 3, 0)` at instant 2000 the stale deadline
`last_endorsement_sent + endorsement_delay = 1400 + 400` already lies in
the past, so a call at the very same instant 2000 — zero elapsed time,
strictly less than `endorsement_delay = 400`, as recorded by
`timer.started = 2000` — already emits the endorsement, refuting "produced
no earlier than endorsement_delay after the set_tip call". -/
theorem c1_counterexample :
    endorsementCount ((sampleStale.runTimer [1400, 1000000]).2.map Prod.snd) = 0 ∧
    (sampleFresh.process_timer 2000).2 = [Approval.new sampleHashC 3 4] ∧
    (Approval.new sampleHashC 3 4).inner = ApprovalInner.Endorsement sampleHashC ∧
    sampleFresh.timer.started = 2000 ∧
    sampleFresh.timer.endorsement_delay = 400 := by
  decide

/-- Claim C1 (amended): for every state reached by a `set_tip` call at
instant `T` (with `last_endorsement_sent <= T`) and any following
`process_timer` calls with no further `set_tip`: every `Endorsement`-tagged
approval emitted is the endorsement of the new tip with
`target_height = tip.height + 1`, and is emitted only at a call no earlier
than `endorsement_delay` after `last_endorsement_sent` — the deadline is
anchored to the last endorsement servicing, which can be earlier than
`endorsement_delay` after the `set_tip` call; at most one such endorsement
is emitted without an intervening `set_tip`; and exactly one is emitted
provided the tip is fresh (`tip.height >= largest_target_height`), the
configuration satisfies
`2 * endorsement_delay <= min_delay <= max_delay`, and some call comes at
or after the deadline. -/
theorem c1_endorsement_after_set_tip (pre : Doomslug) (T : Nat) (h : CryptoHash)
    (height lf : Nat) (ts : List Nat)
    (hles : pre.timer.last_endorsement_sent ≤ T) :
    (∀ p ∈ ((pre.set_tip T h height lf).runTimer ts).2,
      (p.2 : Approval).inner.isEndorsement = true →
      p.2 = Approval.new h height (height + 1) ∧
      pre.timer.last_endorsement_sent + pre.timer.endorsement_delay ≤ p.1) ∧
    endorsementCount (((pre.set_tip T h height lf).runTimer ts).2.map Prod.snd) ≤ 1 ∧
    (pre.largest_target_height ≤ height →
      2 * pre.timer.endorsement_delay ≤ pre.timer.min_delay →
      pre.timer.min_delay ≤ pre.timer.max_delay →
      (∃ t ∈ ts, pre.timer.last_endorsement_sent + pre.timer.endorsement_delay ≤ t) →
      endorsementCount (((pre.set_tip T h height lf).runTimer ts).2.map Prod.snd) = 1) := by
  have hinv : (pre.set_tip T h height lf).tip.height + 1 ≤
      (pre.set_tip T h height lf).timer.height := le_refl _
  obtain ⟨b1, b2⟩ := runTimer_endorsements ts (pre.set_tip T h height lf) hinv
  refine ⟨?_, ?_, ?_⟩
  · intro p hp hpend
    obtain ⟨he, hle⟩ := b2 p hp hpend
    exact ⟨he, hle⟩
  · have hbit : (if (pre.set_tip T h height lf).endorsement_pending = true then 1 else 0)
        = 1 := rfl
    rw [hbit] at b1
    omega
  · intro hf h2d hmx hex
    exact runTimer_exactly_one ts (pre.set_tip T h height lf) rfl hinv hf h2d hmx
      hles hex

/-- Claim C1 witness: the test's first tip update (height 1 at instant 0,
from the fresh state) followed by one call at instant 400 yields exactly
one endorsement. -/
theorem c1_witness :
    sampleNew.timer.last_endorsement_sent ≤ 0 ∧
    endorsementCount (((sampleNew.set_tip 0 sampleHashA 1 1).runTimer [400]).2.map
      Prod.snd) = 1 := by
  refine ⟨by decide, ?_⟩
  exact (c1_endorsement_after_set_tip sampleNew 0 sampleHashA 1 1 [400]
    (by decide)).2.2 (by decide) (by decide) (by decide) ⟨400, by decide, by decide⟩
